import Mathlib

/-
Verification of the ddqb metric-query builder (Go) against its
natural-language specification.  The Go sources are shallowly embedded:
builders become structures, fluent methods become pure state-transforming
functions, `(string, error)` results become `Except String String`.
Braces inside string literals are written with the escapes \x7b and \x7d.
-/

set_option maxRecDepth 4096

namespace Ddqb

/-- FilterOperation mirrors the enum in metric/filter.go (iota order:
Equal, NotEqual, GreaterThan, LessThan, Regex, In, NotIn).  The Go zero
value is `Equal`. -/
inductive FilterOperation where
  | Equal
  | NotEqual
  | GreaterThan
  | LessThan
  | Regex
  | In
  | NotIn
deriving DecidableEq, Repr

/-- GroupOperator mirrors the enum in the filter-group source (iota order:
AndOperator, OrOperator); the Go zero value is `AndOperator`. -/
inductive GroupOperator where
  | AndOperator
  | OrOperator
deriving DecidableEq, Repr

/-- State of a filterBuilder (metric/filter.go): key, operation, values. -/
structure Filter where
  key : String
  operation : FilterOperation
  values : List String
deriving DecidableEq, Repr

/-- NewFilterBuilder (metric/filter.go): operation is left at the Go zero
value, which is `FilterOperation.Equal`; values start empty. -/
def newFilterBuilder (key : String) : Filter :=
  { key := key, operation := FilterOperation.Equal, values := [] }

/-- Equal method of filterBuilder. -/
def Filter.Equal (b : Filter) (value : String) : Filter :=
  { b with operation := FilterOperation.Equal, values := [value] }

/-- NotEqual method of filterBuilder. -/
def Filter.NotEqual (b : Filter) (value : String) : Filter :=
  { b with operation := FilterOperation.NotEqual, values := [value] }

/-- GreaterThan method of filterBuilder. -/
def Filter.GreaterThan (b : Filter) (value : String) : Filter :=
  { b with operation := FilterOperation.GreaterThan, values := [value] }

/-- LessThan method of filterBuilder. -/
def Filter.LessThan (b : Filter) (value : String) : Filter :=
  { b with operation := FilterOperation.LessThan, values := [value] }

/-- Regex method of filterBuilder. -/
def Filter.Regex (b : Filter) (pattern : String) : Filter :=
  { b with operation := FilterOperation.Regex, values := [pattern] }

/-- In method of filterBuilder (variadic values become a list). -/
def Filter.In (b : Filter) (values : List String) : Filter :=
  { b with operation := FilterOperation.In, values := values }

/-- NotIn method of filterBuilder (variadic values become a list). -/
def Filter.NotIn (b : Filter) (values : List String) : Filter :=
  { b with operation := FilterOperation.NotIn, values := values }

/-- quoteValues (metric/filter.go): wraps each value in double quotes. -/
def quoteValues (values : List String) : List String :=
  values.map (fun v => "\"" ++ v ++ "\"")

/-- Build method of filterBuilder (metric/filter.go lines 120-166). -/
def filterBuild (b : Filter) : Except String String :=
  if b.key = "" then Except.error "filter key is required"
  else
    match b.operation with
    | FilterOperation.Equal =>
      if b.values.length ≠ 1 then Except.error "equal filter requires exactly one value"
      else Except.ok (b.key ++ ":" ++ b.values[0]!)
    | FilterOperation.NotEqual =>
      if b.values.length ≠ 1 then Except.error "not equal filter requires exactly one value"
      else Except.ok (b.key ++ "!:" ++ b.values[0]!)
    | FilterOperation.GreaterThan =>
      if b.values.length ≠ 1 then Except.error "greater than filter requires exactly one value"
      else Except.ok (b.key ++ ">" ++ b.values[0]!)
    | FilterOperation.LessThan =>
      if b.values.length ≠ 1 then Except.error "less than filter requires exactly one value"
      else Except.ok (b.key ++ "<" ++ b.values[0]!)
    | FilterOperation.Regex =>
      if b.values.length ≠ 1 then Except.error "regex filter requires exactly one pattern"
      else Except.ok (b.key ++ ":~" ++ b.values[0]!)
    | FilterOperation.In =>
      if b.values.length = 0 then Except.error "in filter requires at least one value"
      else Except.ok (b.key ++ " IN [" ++ String.intercalate ", " (quoteValues b.values) ++ "]")
    | FilterOperation.NotIn =>
      if b.values.length = 0 then Except.error "not in filter requires at least one value"
      else Except.ok (b.key ++ " NOT IN [" ++ String.intercalate ", " (quoteValues b.values) ++ "]")

/-- FilterExpression is the polymorphic tree of filters and filter groups.
The Go code uses an interface with dynamic types filterBuilder and
filterGroupBuilder; a group node carries the filterGroupBuilder fields
(expressions, operator, negated). -/
inductive FilterExpression where
  | filter (f : Filter) : FilterExpression
  | group (expressions : List FilterExpression) (operator : GroupOperator)
      (negated : Bool) : FilterExpression

/-- FilterGroup is the state of a filterGroupBuilder. -/
structure FilterGroup where
  expressions : List FilterExpression
  operator : GroupOperator
  negated : Bool

/-- View a filter group as a filter expression (the Go interface upcast). -/
def FilterGroup.toExpr (g : FilterGroup) : FilterExpression :=
  FilterExpression.group g.expressions g.operator g.negated

/-- NewFilterGroupBuilder: empty expressions, operator defaults to AND,
not negated. -/
def newFilterGroupBuilder : FilterGroup :=
  { expressions := [], operator := GroupOperator.AndOperator, negated := false }

/-- And method of filterGroupBuilder: the first expression added sets the
operator to AND; later calls only append. -/
def FilterGroup.And (b : FilterGroup) (expr : FilterExpression) : FilterGroup :=
  if b.expressions.length = 0 then
    { b with operator := GroupOperator.AndOperator, expressions := b.expressions ++ [expr] }
  else
    { b with expressions := b.expressions ++ [expr] }

/-- Or method of filterGroupBuilder: the first expression added sets the
operator to OR; later calls only append. -/
def FilterGroup.Or (b : FilterGroup) (expr : FilterExpression) : FilterGroup :=
  if b.expressions.length = 0 then
    { b with operator := GroupOperator.OrOperator, expressions := b.expressions ++ [expr] }
  else
    { b with expressions := b.expressions ++ [expr] }

/-- Not method of filterGroupBuilder: sets the negated flag (no toggle). -/
def FilterGroup.Not (b : FilterGroup) : FilterGroup :=
  { b with negated := true }

/-- Operator string chosen in filterGroupBuilder.Build. -/
def groupOperatorString (op : GroupOperator) : String :=
  if op = GroupOperator.AndOperator then " AND " else " OR "

mutual

/-- Build method on a filter expression: filterBuilder.Build on a leaf,
filterGroupBuilder.Build on a group (empty-children check, recursive child
builds with wrapped errors, operator join, parentheses iff more than one
child, then the NOT prefix). -/
def buildExpr : FilterExpression → Except String String
  | FilterExpression.filter f => filterBuild f
  | FilterExpression.group exprs op neg =>
    if exprs.length = 0 then
      Except.error "filter group must contain at least one expression"
    else
      match buildParts exprs with
      | Except.error e => Except.error e
      | Except.ok parts =>
        let groupStr := String.intercalate (groupOperatorString op) parts
        let groupStr := if exprs.length > 1 then "(" ++ groupStr ++ ")" else groupStr
        Except.ok (if neg then "NOT " ++ groupStr else groupStr)

/-- Child-build loop of filterGroupBuilder.Build: builds each child in
order, wrapping a failure with the context prefix used by the Go code. -/
def buildParts : List FilterExpression → Except String (List String)
  | [] => Except.ok []
  | e :: rest =>
    match buildExpr e with
    | Except.error err => Except.error ("error building filter expression: " ++ err)
    | Except.ok s =>
      match buildParts rest with
      | Except.error err => Except.error err
      | Except.ok ss => Except.ok (s :: ss)

end

/-- Build method of filterGroupBuilder applied to a group state. -/
def FilterGroup.build (g : FilterGroup) : Except String String :=
  buildExpr g.toExpr

/-- State of a functionBuilder (metric/function.go): name and args. -/
structure Function where
  name : String
  args : List String
deriving DecidableEq, Repr

/-- Build method of functionBuilder (metric/function.go). -/
def functionBuild (b : Function) : Except String String :=
  if b.name = "" then Except.error "function name is required"
  else if b.args.length > 0 then
    Except.ok ("." ++ b.name ++ "(" ++ String.intercalate ", " b.args ++ ")")
  else
    Except.ok ("." ++ b.name ++ "()")

/-- State of a metricQueryBuilder (metric/metric.go lines 46-53). -/
structure MetricQuery where
  metric : String
  aggregator : String
  timeWindow : String
  filters : List FilterExpression
  groupBy : List String
  functions : List Function

/-- NewMetricQueryBuilder: all fields empty. -/
def newMetricQueryBuilder : MetricQuery :=
  { metric := "", aggregator := "", timeWindow := "", filters := [],
    groupBy := [], functions := [] }

/-- Type test used by metricQueryBuilder.Build: does the dynamic type of a
filter expression implement FilterGroupBuilder? -/
def isGroupExpr : FilterExpression → Bool
  | FilterExpression.filter _ => false
  | FilterExpression.group _ _ _ => true

/-- Simple-filter loop of metricQueryBuilder.Build: builds each filter in
order, wrapping a failure with the context prefix used by the Go code. -/
def buildFilterStrs : List FilterExpression → Except String (List String)
  | [] => Except.ok []
  | f :: rest =>
    match buildExpr f with
    | Except.error err => Except.error ("error building filter: " ++ err)
    | Except.ok s =>
      match buildFilterStrs rest with
      | Except.error err => Except.error err
      | Except.ok ss => Except.ok (s :: ss)

/-- Function loop of metricQueryBuilder.Build: builds each function in
order, wrapping a failure with the context prefix used by the Go code. -/
def buildFunctionStrs : List Function → Except String (List String)
  | [] => Except.ok []
  | fn :: rest =>
    match functionBuild fn with
    | Except.error err => Except.error ("error building function: " ++ err)
    | Except.ok s =>
      match buildFunctionStrs rest with
      | Except.error err => Except.error err
      | Except.ok ss => Except.ok (s :: ss)

/-- Filter-block step of metricQueryBuilder.Build (metric/metric.go lines
177-216): with no filters emit the wildcard block; if any filter is a
group, wrap all filters in one synthesized AND group; otherwise join the
individually built filters with commas. -/
def buildFilterBlock (filters : List FilterExpression) : Except String String :=
  if filters.length > 0 then
    let hasExplicitOperators := filters.any isGroupExpr
    if hasExplicitOperators then
      let group := filters.foldl FilterGroup.And newFilterGroupBuilder
      match group.build with
      | Except.error e => Except.error ("error building filter group: " ++ e)
      | Except.ok groupStr => Except.ok ("\x7b" ++ groupStr ++ "\x7d")
    else
      match buildFilterStrs filters with
      | Except.error e => Except.error e
      | Except.ok filterStrs =>
        Except.ok ("\x7b" ++ String.intercalate ", " filterStrs ++ "\x7d")
  else
    Except.ok "\x7b*\x7d"

/-- Build method of metricQueryBuilder (metric/metric.go lines 157-233). -/
def metricQueryBuild (b : MetricQuery) : Except String String :=
  if b.metric = "" then Except.error "metric name is required"
  else
    let parts : List String :=
      if b.aggregator ≠ "" then
        if b.timeWindow ≠ "" then [b.aggregator ++ "(" ++ b.timeWindow ++ "):"]
        else [b.aggregator ++ ":"]
      else []
    let parts := parts ++ [b.metric]
    match buildFilterBlock b.filters with
    | Except.error e => Except.error e
    | Except.ok blockStr =>
      let parts := parts ++ [blockStr]
      let parts := parts ++
        (if b.groupBy.length > 0 then
          [" by \x7b" ++ String.intercalate ", " b.groupBy ++ "\x7d"]
        else [])
      match buildFunctionStrs b.functions with
      | Except.error e => Except.error e
      | Except.ok fnStrs => Except.ok (String.join (parts ++ fnStrs))

mutual

/-- findGroupRecursive (metric/metric.go lines 120-136): test the node
itself first, then search its children in order; leaves yield nothing. -/
def findGroupRecursive (expr : FilterExpression) (predicate : FilterGroup → Bool) :
    Option FilterGroup :=
  match expr with
  | FilterExpression.filter _ => none
  | FilterExpression.group exprs op neg =>
    if predicate ⟨exprs, op, neg⟩ then some ⟨exprs, op, neg⟩
    else findGroupInList exprs predicate

/-- Loop over nested expressions inside findGroupRecursive, returning the
first hit in order. -/
def findGroupInList : List FilterExpression → (FilterGroup → Bool) → Option FilterGroup
  | [], _ => none
  | e :: rest, predicate =>
    match findGroupRecursive e predicate with
    | some g => some g
    | none => findGroupInList rest predicate

end

/-- FindGroup method of metricQueryBuilder (metric/metric.go lines 91-98):
first match over the top-level filters using findGroupRecursive. -/
def MetricQuery.FindGroup (b : MetricQuery) (predicate : FilterGroup → Bool) :
    Option FilterGroup :=
  findGroupInList b.filters predicate

/-- Group update performed by AddToGroup when the group was found
(metric/metric.go lines 108-115): the Go code mutates the found group in
place through its pointer, appending with AND or OR according to the
group's current operator; this function is that in-place effect. -/
def addToGroupUpdate (group : FilterGroup) (filter : FilterExpression) : FilterGroup :=
  if group.operator = GroupOperator.AndOperator then group.And filter
  else group.Or filter

/-- AddToGroup method of metricQueryBuilder (metric/metric.go lines
101-117) as seen on the builder value: a nil group falls back to appending
a new top-level filter; a found group is mutated in place (see
addToGroupUpdate), leaving the builder's own fields unchanged. -/
def MetricQuery.AddToGroup (b : MetricQuery) (group : Option FilterGroup)
    (filter : FilterExpression) : MetricQuery :=
  match group with
  | none => { b with filters := b.filters ++ [filter] }
  | some _ => b

mutual

/-- Pre-order enumeration of the groups of one filter expression: the node
itself (when it is a group) before its children, children in order. -/
def groupsPreExpr : FilterExpression → List FilterGroup
  | FilterExpression.filter _ => []
  | FilterExpression.group exprs op neg => ⟨exprs, op, neg⟩ :: groupsPreListAux exprs

/-- Pre-order enumeration of the groups of a list of expressions. -/
def groupsPreListAux : List FilterExpression → List FilterGroup
  | [] => []
  | e :: rest => groupsPreExpr e ++ groupsPreListAux rest

end

/-- Separator node of the external ddqp grammar AST, with the fields the
bridge reads: the And, Or and Comma kind flags. -/
structure DDQP.Separator where
  And : Bool
  Or : Bool
  Comma : Bool

/-- Value node of the external ddqp grammar AST, with the fields the
bridge reads.  The Go fields are pointers, modelled as options.  `Number`
carries a float whose Go rendering (%g) never reduces in this embedding;
no claim below depends on numeric values. -/
structure DDQP.Value where
  Str : Option String
  Identifier : Option String
  Number : Option Float
  Boolean : Option Bool
  Wildcard : Option String
  Separator : Option DDQP.Separator

/-- FilterSeparator node of the external ddqp grammar AST, with the kind
flags the bridge reads (Colon, Regex, In, NotIn).  A separator present
but with none of these flags set is an unrecognized kind. -/
structure DDQP.FilterSeparator where
  Colon : Bool
  Regex : Bool
  In : Bool
  NotIn : Bool

/-- FilterValue node of the external ddqp grammar AST. -/
structure DDQP.FilterValue where
  SimpleValue : Option DDQP.Value
  ListValue : List DDQP.Value

/-- SimpleFilter node of the external ddqp grammar AST. -/
structure DDQP.SimpleFilter where
  Negative : Bool
  FilterKey : String
  FilterSeparator : Option DDQP.FilterSeparator
  FilterValue : Option DDQP.FilterValue

/-- Param node of the external ddqp grammar AST: a wildcard flag, an
optional simple filter, an optional grouped filter (its parameter list),
or an optional separator.  Grouped filters nest recursively. -/
inductive DDQP.Param where
  | mk (Asterisk : Bool) (SimpleFilter : Option DDQP.SimpleFilter)
      (GroupedFilter : Option (List DDQP.Param))
      (Separator : Option DDQP.Separator) : DDQP.Param

/-- Asterisk field accessor of a Param. -/
def DDQP.Param.Asterisk : DDQP.Param → Bool
  | DDQP.Param.mk a _ _ _ => a

/-- SimpleFilter field accessor of a Param. -/
def DDQP.Param.SimpleFilter : DDQP.Param → Option DDQP.SimpleFilter
  | DDQP.Param.mk _ sf _ _ => sf

/-- GroupedFilter field accessor of a Param (the parameter list of the
grouped filter, when present). -/
def DDQP.Param.GroupedFilter : DDQP.Param → Option (List DDQP.Param)
  | DDQP.Param.mk _ _ gf _ => gf

/-- Separator field accessor of a Param. -/
def DDQP.Param.Separator : DDQP.Param → Option DDQP.Separator
  | DDQP.Param.mk _ _ _ s => s

/-- MetricFilter node of the external ddqp grammar AST: a leading
parameter and the remaining parameters. -/
structure DDQP.MetricFilter where
  Left : Option DDQP.Param
  Parameters : List DDQP.Param

/-- Character trimming used by extractValueString: strings.Trim with the
cutset of a double quote and a single quote. -/
def isQuoteCutset (c : Char) : Bool :=
  c = '"' || c = Char.ofNat 39

/-- strings.Trim on the quote cutset: drop cutset characters from both
ends. -/
def trimQuoteCutset (s : String) : String :=
  String.mk (((s.toList.dropWhile isQuoteCutset).reverse.dropWhile isQuoteCutset).reverse)

/-- extractValueString (metric/parser.go lines 364-393): a clean string
from a Value; separators and nil values give the empty string. -/
def extractValueString (v : Option DDQP.Value) : String :=
  match v with
  | none => ""
  | some v =>
    if v.Separator.isSome then ""
    else
      match v.Str with
      | some s => trimQuoteCutset s
      | none =>
        match v.Identifier with
        | some i => i
        | none =>
          match v.Number with
          | some n => toString n
          | none =>
            match v.Boolean with
            | some b => if b then "true" else "false"
            | none =>
              match v.Wildcard with
              | some w => w
              | none => ""

/-- Helper for extractFilterValue: first entry of a value list whose
extracted string is nonempty. -/
def firstNonEmptyValue : List DDQP.Value → Option String
  | [] => none
  | v :: rest =>
    let valStr := extractValueString (some v)
    if valStr ≠ "" then some valStr else firstNonEmptyValue rest

/-- extractFilterValue (metric/parser.go lines 304-326): a single string
value from a FilterValue. -/
def extractFilterValue (fv : Option DDQP.FilterValue) : Except String String :=
  match fv with
  | none => Except.error "filter value is nil"
  | some fv =>
    match fv.SimpleValue with
    | some v => Except.ok (extractValueString (some v))
    | none =>
      if fv.ListValue.length > 0 then
        match firstNonEmptyValue fv.ListValue with
        | some s => Except.ok s
        | none => Except.error "filter value list has no valid values"
      else
        Except.error "filter value has no content"

/-- Helper for extractFilterValues: nonempty extracted strings of the
non-separator entries of a value list, in order. -/
def collectListValues : List DDQP.Value → List String
  | [] => []
  | v :: rest =>
    if v.Separator.isSome then collectListValues rest
    else
      let valStr := extractValueString (some v)
      if valStr ≠ "" then valStr :: collectListValues rest
      else collectListValues rest

/-- extractFilterValues (metric/parser.go lines 329-362): the value list
of an IN or NOT IN filter; zero extracted values is an error. -/
def extractFilterValues (fv : Option DDQP.FilterValue) : Except String (List String) :=
  match fv with
  | none => Except.error "filter value is nil"
  | some fv =>
    let values :=
      if fv.ListValue.length > 0 then collectListValues fv.ListValue
      else
        match fv.SimpleValue with
        | some v =>
          let valStr := extractValueString (some v)
          if valStr ≠ "" then [valStr] else []
        | none => []
    if values.length = 0 then Except.error "no values found in filter"
    else Except.ok values

/-- convertSimpleFilter (metric/parser.go lines 249-302): empty keys and
missing separators fail; the single value is extracted before the kind
switch, so its failures abort every kind; the Colon and Regex kinds and
the default (unrecognized) kind use the single value, the In and NotIn
kinds extract list values; an unrecognized separator kind falls back to
Equal (or NotEqual when negative). -/
def convertSimpleFilter (sf : Option DDQP.SimpleFilter) : Except String (Option Filter) :=
  match sf with
  | none => Except.ok none
  | some sf =>
    if sf.FilterKey = "" then Except.error "filter key is empty"
    else
      let builder := newFilterBuilder sf.FilterKey
      match sf.FilterSeparator with
      | none => Except.error "filter separator is missing"
      | some fs =>
        match extractFilterValue sf.FilterValue with
        | Except.error e => Except.error ("failed to extract filter value: " ++ e)
        | Except.ok value =>
          if fs.Colon then
            Except.ok (some (if sf.Negative then builder.NotEqual value else builder.Equal value))
          else if fs.Regex then
            Except.ok (some (builder.Regex value))
          else if fs.In then
            match extractFilterValues sf.FilterValue with
            | Except.error e => Except.error e
            | Except.ok values => Except.ok (some (builder.In values))
          else if fs.NotIn then
            match extractFilterValues sf.FilterValue with
            | Except.error e => Except.error e
            | Except.ok values => Except.ok (some (builder.NotIn values))
          else
            Except.ok (some (if sf.Negative then builder.NotEqual value else builder.Equal value))

mutual

/-- convertParam (metric/parser.go lines 172-199): wildcards and
separators convert to nothing, simple filters through convertSimpleFilter,
grouped filters recursively through convertGroupedFilterParams. -/
def convertParam : Option DDQP.Param → Except String (Option FilterExpression)
  | none => Except.ok none
  | some (DDQP.Param.mk asterisk simpleFilter groupedFilter separator) =>
    if asterisk then Except.ok none
    else
      match simpleFilter with
      | some sf =>
        match convertSimpleFilter (some sf) with
        | Except.error e => Except.error e
        | Except.ok none => Except.ok none
        | Except.ok (some f) => Except.ok (some (FilterExpression.filter f))
      | none =>
        match groupedFilter with
        | some ps => convertGroupedFilterParams ps newFilterGroupBuilder GroupOperator.AndOperator
        | none =>
          match separator with
          | some _ => Except.ok none
          | none => Except.ok none
termination_by x => sizeOf x
decreasing_by all_goals (simp_wf; try omega)

/-- Parameter loop of convertGroupedFilter (metric/parser.go lines
201-246), carrying the group under construction and the current operator
(initially AND): separators switch the operator (comma and AND to AND, OR
to OR), other parameters are converted and appended with the current
operator; an empty resulting group converts to nothing. -/
def convertGroupedFilterParams : List DDQP.Param → FilterGroup → GroupOperator →
    Except String (Option FilterExpression)
  | [], group, _ =>
    if group.expressions.length = 0 then Except.ok none
    else Except.ok (some group.toExpr)
  | p :: rest, group, currentOperator =>
    match p.Separator with
    | some sep =>
      if sep.And || sep.Comma then
        convertGroupedFilterParams rest group GroupOperator.AndOperator
      else if sep.Or then
        convertGroupedFilterParams rest group GroupOperator.OrOperator
      else
        convertGroupedFilterParams rest group currentOperator
    | none =>
      match convertParam (some p) with
      | Except.error e => Except.error e
      | Except.ok none => convertGroupedFilterParams rest group currentOperator
      | Except.ok (some expr) =>
        if currentOperator = GroupOperator.AndOperator then
          convertGroupedFilterParams rest (group.And expr) currentOperator
        else
          convertGroupedFilterParams rest (group.Or expr) currentOperator
termination_by ps _ _ => sizeOf ps + 1
decreasing_by all_goals (simp_wf; try omega)

end

/-- Loop state of convertFilters (metric/parser.go lines 79-170): the
top-level expressions accumulated so far, the group currently being
built (if any), and the groupOperator variable (Go zero value AND). -/
structure ConvertState where
  expressions : List FilterExpression
  currentGroup : Option FilterGroup
  groupOperator : GroupOperator

/-- One iteration of the parameter loop of convertFilters: an AND or OR
separator starts a group (moving the last top-level expression into it)
or retargets the operator of the open group; a comma (or any other)
separator changes nothing; any other parameter is converted and appended
to the open group with the current groupOperator, or else accumulated as
a top-level expression. -/
def convertFiltersStep (st : ConvertState) (param : DDQP.Param) :
    Except String ConvertState :=
  match param.Separator with
  | some sep =>
    if sep.And then
      match st.currentGroup with
      | none =>
        match st.expressions.getLast? with
        | some last =>
          Except.ok
            { expressions := st.expressions.dropLast,
              currentGroup :=
                some { expressions := [last], operator := GroupOperator.AndOperator,
                       negated := false },
              groupOperator := GroupOperator.AndOperator }
        | none =>
          Except.ok
            { expressions := st.expressions,
              currentGroup :=
                some { expressions := [], operator := GroupOperator.AndOperator,
                       negated := false },
              groupOperator := GroupOperator.AndOperator }
      | some g =>
        Except.ok
          { expressions := st.expressions,
            currentGroup := some { g with operator := GroupOperator.AndOperator },
            groupOperator := GroupOperator.AndOperator }
    else if sep.Or then
      match st.currentGroup with
      | none =>
        match st.expressions.getLast? with
        | some last =>
          Except.ok
            { expressions := st.expressions.dropLast,
              currentGroup :=
                some { expressions := [last], operator := GroupOperator.OrOperator,
                       negated := false },
              groupOperator := GroupOperator.OrOperator }
        | none =>
          Except.ok
            { expressions := st.expressions,
              currentGroup :=
                some { expressions := [], operator := GroupOperator.OrOperator,
                       negated := false },
              groupOperator := GroupOperator.OrOperator }
      | some g =>
        Except.ok
          { expressions := st.expressions,
            currentGroup := some { g with operator := GroupOperator.OrOperator },
            groupOperator := GroupOperator.OrOperator }
    else
      Except.ok st
  | none =>
    match convertParam (some param) with
    | Except.error e => Except.error e
    | Except.ok none => Except.ok st
    | Except.ok (some expr) =>
      match st.currentGroup with
      | some g =>
        if st.groupOperator = GroupOperator.AndOperator then
          Except.ok { st with currentGroup := some (g.And expr) }
        else
          Except.ok { st with currentGroup := some (g.Or expr) }
      | none =>
        Except.ok { st with expressions := st.expressions ++ [expr] }

/-- Parameter loop of convertFilters followed by its completion step: any
open group is appended to the accumulated expressions. -/
def convertFiltersLoop : List DDQP.Param → ConvertState →
    Except String (List FilterExpression)
  | [], st =>
    match st.currentGroup with
    | some g => Except.ok (st.expressions ++ [g.toExpr])
    | none => Except.ok st.expressions
  | p :: rest, st =>
    match convertFiltersStep st p with
    | Except.error e => Except.error e
    | Except.ok st => convertFiltersLoop rest st

/-- convertFilters (metric/parser.go lines 79-170): convert the leading
parameter (if any) to a top-level expression, then run the parameter
loop. -/
def convertFilters (mf : DDQP.MetricFilter) : Except String (List FilterExpression) :=
  match convertParam mf.Left with
  | Except.error e => Except.error e
  | Except.ok leftExpr =>
    let expressions :=
      match leftExpr with
      | some expr => [expr]
      | none => []
    convertFiltersLoop mf.Parameters
      { expressions := expressions, currentGroup := none,
        groupOperator := GroupOperator.AndOperator }

/-- Simple-filter atom of the external grammar fragment used by the
round-trip claim: `k:v`, `k IN (v1,v2)`, `k NOT IN (v1,v2)`. -/
inductive Atom where
  | colon (key value : String)
  | inList (key : String) (values : List String)
  | notInList (key : String) (values : List String)
deriving DecidableEq, Repr

/-- Canonical text of an atom in the external grammar's preferred style
(bare parenthesized lists). -/
def atomCanonGrammar : Atom → String
  | Atom.colon k v => k ++ ":" ++ v
  | Atom.inList k vs => k ++ " IN (" ++ String.intercalate "," vs ++ ")"
  | Atom.notInList k vs => k ++ " NOT IN (" ++ String.intercalate "," vs ++ ")"

/-- Canonical text of a whole fragment query. -/
def recomposeQuery (m : String) (atoms : List Atom) : String :=
  m ++ "\x7b" ++ String.intercalate ", " (atoms.map atomCanonGrammar) ++ "\x7d"

/-- Removal of every space, the normalization used to compare strings up
to spacing. -/
def despace (s : String) : String :=
  String.mk (s.toList.filter (fun c => c ≠ ' '))

/-- Opening-brace character. -/
def lbrace : Char := Char.ofNat 123

/-- Closing-brace character. -/
def rbrace : Char := Char.ofNat 125

/-- Split a character list at its first opening brace, requiring the very
last character to be the closing brace; yields (metric, filter body). -/
def splitBraceAux : List Char → Option (List Char × List Char)
  | [] => none
  | c :: rest =>
    if c = lbrace then
      match rest.getLast? with
      | some d => if d = rbrace then some ([], rest.dropLast) else none
      | none => none
    else
      match splitBraceAux rest with
      | some (m, body) => some (c :: m, body)
      | none => none

/-- Split a character list on commas that are not enclosed in
parentheses (so that IN lists stay whole). -/
def splitTopCommaAux : List Char → Nat → List Char → List (List Char)
  | [], _, acc => [acc.reverse]
  | c :: rest, depth, acc =>
    if c = ',' ∧ depth = 0 then acc.reverse :: splitTopCommaAux rest 0 []
    else if c = '(' then splitTopCommaAux rest (depth + 1) (c :: acc)
    else if c = ')' then splitTopCommaAux rest (depth - 1) (c :: acc)
    else splitTopCommaAux rest depth (c :: acc)

/-- Space trimming at both ends of a character list. -/
def trimSpacesChars (cs : List Char) : List Char :=
  ((cs.dropWhile (fun c => c = ' ')).reverse.dropWhile (fun c => c = ' ')).reverse

/-- Prefix test on character lists. -/
def isPrefixChars : List Char → List Char → Bool
  | [], _ => true
  | _ :: _, [] => false
  | p :: ps, c :: cs => p = c && isPrefixChars ps cs

/-- Split a character list at the first occurrence of a marker, yielding
the parts before and after it. -/
def splitMarker (marker : List Char) : List Char → Option (List Char × List Char)
  | [] => none
  | c :: rest =>
    if isPrefixChars marker (c :: rest) then some ([], (c :: rest).drop marker.length)
    else
      match splitMarker marker rest with
      | some (pre, post) => some (c :: pre, post)
      | none => none

/-- Split a character list on every comma. -/
def splitOnCommaChars : List Char → List (List Char)
  | [] => [[]]
  | c :: rest =>
    if c = ',' then [] :: splitOnCommaChars rest
    else
      match splitOnCommaChars rest with
      | t :: ts => (c :: t) :: ts
      | [] => [[c]]

/-- Modelled from the spec: atom parsing of the external grammar parser
(the ddqp collaborator is out of repository; spec section 6 documents the
simple filter atoms `k:v`, `k IN (v1,v2)`, `k NOT IN (v1,v2)`).  Keys
must be nonempty; the NOT IN marker is tried before the IN marker; the
colon atom splits at the first colon. -/
def parseAtomModel (raw : List Char) : Option Atom :=
  match splitMarker (" NOT IN (").toList (trimSpacesChars raw) with
  | some (k, rest) =>
    if rest.getLast? = some ')' ∧ k ≠ [] then
      some (Atom.notInList (String.mk k)
        ((splitOnCommaChars rest.dropLast).map (fun vs => String.mk (trimSpacesChars vs))))
    else none
  | none =>
    match splitMarker (" IN (").toList (trimSpacesChars raw) with
    | some (k, rest) =>
      if rest.getLast? = some ')' ∧ k ≠ [] then
        some (Atom.inList (String.mk k)
          ((splitOnCommaChars rest.dropLast).map (fun vs => String.mk (trimSpacesChars vs))))
      else none
    | none =>
      match splitMarker [':'] (trimSpacesChars raw) with
      | some (k, rest) =>
        if k ≠ [] then some (Atom.colon (String.mk k) (String.mk rest)) else none
      | none => none

/-- Atom-list parsing: every comma-separated piece must parse. -/
def parseAtomsModel : List (List Char) → Option (List Atom)
  | [] => some []
  | raw :: rest =>
    match parseAtomModel raw with
    | some a =>
      match parseAtomsModel rest with
      | some as1 => some (a :: as1)
      | none => none
    | none => none

/-- Modelled from the spec: the external grammar parser (ddqp, an
out-of-repository collaborator treated as a black box) restricted to the
fragment `metric\x7bf1, f2, ...\x7d` with comma-separated simple-filter
atoms and a nonempty metric name.  The final guard accepts a string only
when, after removing spaces, it coincides with the canonical recomposition
of what was parsed, so acceptance is sound for the documented grammar. -/
def ddqpParseModel (s : String) : Option (String × List Atom) :=
  match splitBraceAux s.toList with
  | none => none
  | some (mChars, bodyChars) =>
    if String.mk mChars = "" then none
    else
      match parseAtomsModel (splitTopCommaAux bodyChars 0 []) with
      | none => none
      | some atoms =>
        if despace s = despace (recomposeQuery (String.mk mChars) atoms) then
          some (String.mk mChars, atoms)
        else none

/-- Identifier Value node of the ddqp AST, as the grammar produces for a
bare word. -/
def identValue (v : String) : DDQP.Value :=
  { Str := none, Identifier := some v, Number := none, Boolean := none,
    Wildcard := none, Separator := none }

/-- SimpleFilter node the ddqp grammar produces for an atom of the
fragment. -/
def atomToSimpleFilter : Atom → DDQP.SimpleFilter
  | Atom.colon k v =>
    { Negative := false, FilterKey := k,
      FilterSeparator := some { Colon := true, Regex := false, In := false, NotIn := false },
      FilterValue := some { SimpleValue := some (identValue v), ListValue := [] } }
  | Atom.inList k vs =>
    { Negative := false, FilterKey := k,
      FilterSeparator := some { Colon := false, Regex := false, In := true, NotIn := false },
      FilterValue := some { SimpleValue := none, ListValue := vs.map identValue } }
  | Atom.notInList k vs =>
    { Negative := false, FilterKey := k,
      FilterSeparator := some { Colon := false, Regex := false, In := false, NotIn := true },
      FilterValue := some { SimpleValue := none, ListValue := vs.map identValue } }

/-- Comma separator Param node of the ddqp AST. -/
def commaSeparatorParam : DDQP.Param :=
  DDQP.Param.mk false none none (some { And := false, Or := false, Comma := true })

/-- AND separator Param node of the ddqp AST. -/
def andSeparatorParam : DDQP.Param :=
  DDQP.Param.mk false none none (some { And := true, Or := false, Comma := false })

/-- OR separator Param node of the ddqp AST. -/
def orSeparatorParam : DDQP.Param :=
  DDQP.Param.mk false none none (some { And := false, Or := true, Comma := false })

/-- Simple-filter Param node of the ddqp AST for an atom. -/
def atomParam (a : Atom) : DDQP.Param :=
  DDQP.Param.mk false (some (atomToSimpleFilter a)) none none

/-- Remaining parameters of a comma-separated filter list: alternating
comma separators and simple filters. -/
def interleaveComma : List Atom → List DDQP.Param
  | [] => []
  | a :: rest => commaSeparatorParam :: atomParam a :: interleaveComma rest

/-- MetricFilter node of the ddqp AST for a comma-separated atom list:
the first atom is the leading parameter. -/
def atomsToMetricFilter : List Atom → DDQP.MetricFilter
  | [] => { Left := none, Parameters := [] }
  | a :: rest => { Left := some (atomParam a), Parameters := interleaveComma rest }

/-- ParseQuery (metric/parser.go lines 13-76) on the fragment: the
spec-modelled grammar parser feeds the real filter conversion; queries of
the fragment carry no aggregator, time window, grouping or functions, and
the time-window preprocessing leaves them unchanged.  `none` is a parse
failure of the grammar collaborator; `some` carries ParseQuery's result. -/
def parseQueryModel (s : String) : Option (Except String MetricQuery) :=
  match ddqpParseModel s with
  | none => none
  | some (m, atoms) =>
    match convertFilters (atomsToMetricFilter atoms) with
    | Except.error e => some (Except.error ("failed to convert filters: " ++ e))
    | Except.ok filters =>
      some (Except.ok { newMetricQueryBuilder with metric := m, filters := filters })

/-- Ingestion followed by rendering: ParseQuery then Build. -/
def ingestRenderModel (s : String) : Option (Except String String) :=
  match parseQueryModel s with
  | none => none
  | some (Except.error e) => some (Except.error e)
  | some (Except.ok b) => some (metricQueryBuild b)

/-- Key of an atom of the fragment grammar. -/
def atomKey : Atom → String
  | Atom.colon k _ => k
  | Atom.inList k _ => k
  | Atom.notInList k _ => k

/-- Filter expression the ingestion bridge produces for an atom of the
fragment. -/
def colonToExpr : Atom → FilterExpression
  | Atom.colon k v =>
    FilterExpression.filter { key := k, operation := FilterOperation.Equal, values := [v] }
  | Atom.inList k vs =>
    FilterExpression.filter { key := k, operation := FilterOperation.In, values := vs }
  | Atom.notInList k vs =>
    FilterExpression.filter { key := k, operation := FilterOperation.NotIn, values := vs }

/-- Test for the plain colon form of an atom. -/
def Atom.isColon : Atom → Bool
  | Atom.colon _ _ => true
  | _ => false

/-- Build method of filterBuilder with its receiver threaded through: the
Go method (metric/filter.go lines 120-166) reads but never assigns the
receiver fields key, operation, values, so the receiver after the call is
the receiver before it. -/
def filterBuildWithReceiver (b : Filter) : Filter × Except String String :=
  (b, filterBuild b)

/-- Build method of filterGroupBuilder with its receiver threaded through:
the Go method reads but never assigns the receiver fields expressions,
operator, negated. -/
def groupBuildWithReceiver (g : FilterGroup) : FilterGroup × Except String String :=
  (g, g.build)

/-- Build method of metricQueryBuilder with its receiver threaded through:
the Go method (metric/metric.go lines 157-233) reads but never assigns
the receiver fields metric, aggregator, timeWindow, filters, groupBy,
functions (the synthesized normalization group is a fresh local value). -/
def metricQueryBuildWithReceiver (b : MetricQuery) : MetricQuery × Except String String :=
  (b, metricQueryBuild b)

/-- Claim C3 (amended): filterBuilder.Build fails on an empty key, fails
when no operation was ever set (the fresh builder), fails when the value
count of the operation is violated (exactly one for Equal, NotEqual and
Regex, at least one for In and NotIn), and otherwise renders key:value,
key!:value, key:~pattern, and — unlike the claimed bare parenthesized
lists — `key IN ["v1", "v2"]` and `key NOT IN ["v1", "v2"]` with the
values double-quoted and joined by a comma and a space inside square
brackets. -/
theorem filter_build_characterization :
    (∀ b : Filter, b.key = "" → filterBuild b = Except.error "filter key is required")
    ∧ (∀ k : String, ∃ e, filterBuild (newFilterBuilder k) = Except.error e)
    ∧ (∀ b : Filter, b.operation = FilterOperation.Equal → b.values.length ≠ 1 →
        ∃ e, filterBuild b = Except.error e)
    ∧ (∀ b : Filter, b.operation = FilterOperation.NotEqual → b.values.length ≠ 1 →
        ∃ e, filterBuild b = Except.error e)
    ∧ (∀ b : Filter, b.operation = FilterOperation.Regex → b.values.length ≠ 1 →
        ∃ e, filterBuild b = Except.error e)
    ∧ (∀ b : Filter, b.operation = FilterOperation.In → b.values = [] →
        ∃ e, filterBuild b = Except.error e)
    ∧ (∀ b : Filter, b.operation = FilterOperation.NotIn → b.values = [] →
        ∃ e, filterBuild b = Except.error e)
    ∧ (∀ k v : String, k ≠ "" →
        filterBuild { key := k, operation := FilterOperation.Equal, values := [v] }
          = Except.ok (k ++ ":" ++ v))
    ∧ (∀ k v : String, k ≠ "" →
        filterBuild { key := k, operation := FilterOperation.NotEqual, values := [v] }
          = Except.ok (k ++ "!:" ++ v))
    ∧ (∀ k v : String, k ≠ "" →
        filterBuild { key := k, operation := FilterOperation.Regex, values := [v] }
          = Except.ok (k ++ ":~" ++ v))
    ∧ (∀ (k v : String) (vs : List String), k ≠ "" →
        filterBuild { key := k, operation := FilterOperation.In, values := v :: vs }
          = Except.ok (k ++ " IN [" ++ String.intercalate ", " (quoteValues (v :: vs)) ++ "]"))
    ∧ (∀ (k v : String) (vs : List String), k ≠ "" →
        filterBuild { key := k, operation := FilterOperation.NotIn, values := v :: vs }
          = Except.ok (k ++ " NOT IN [" ++ String.intercalate ", " (quoteValues (v :: vs)) ++ "]")) := by
  refine ⟨?_, ?_, ?_, ?_, ?_, ?_, ?_, ?_, ?_, ?_, ?_, ?_⟩
  · intro b h
    simp [filterBuild, h]
  · intro k
    by_cases h : k = ""
    · exact ⟨"filter key is required", by simp [filterBuild, newFilterBuilder, h]⟩
    · exact ⟨"equal filter requires exactly one value",
        by simp [filterBuild, newFilterBuilder, h]⟩
  · intro b h1 h2
    by_cases hk : b.key = ""
    · exact ⟨"filter key is required", by simp [filterBuild, hk]⟩
    · exact ⟨"equal filter requires exactly one value", by simp [filterBuild, hk, h1, h2]⟩
  · intro b h1 h2
    by_cases hk : b.key = ""
    · exact ⟨"filter key is required", by simp [filterBuild, hk]⟩
    · exact ⟨"not equal filter requires exactly one value", by simp [filterBuild, hk, h1, h2]⟩
  · intro b h1 h2
    by_cases hk : b.key = ""
    · exact ⟨"filter key is required", by simp [filterBuild, hk]⟩
    · exact ⟨"regex filter requires exactly one pattern", by simp [filterBuild, hk, h1, h2]⟩
  · intro b h1 h2
    by_cases hk : b.key = ""
    · exact ⟨"filter key is required", by simp [filterBuild, hk]⟩
    · exact ⟨"in filter requires at least one value", by simp [filterBuild, hk, h1, h2]⟩
  · intro b h1 h2
    by_cases hk : b.key = ""
    · exact ⟨"filter key is required", by simp [filterBuild, hk]⟩
    · exact ⟨"not in filter requires at least one value", by simp [filterBuild, hk, h1, h2]⟩
  · intro k v h
    simp [filterBuild, h]
  · intro k v h
    simp [filterBuild, h]
  · intro k v h
    simp [filterBuild, h]
  · intro k v vs h
    simp [filterBuild, h]
  · intro k v vs h
    simp [filterBuild, h]

/-- Witness for claim C3: the characterization applied at concrete
inputs, discharging every hypothesis. -/
theorem filter_build_characterization_witness :
    (filterBuild { key := "", operation := FilterOperation.Equal, values := ["x"] }
      = Except.error "filter key is required")
    ∧ (∃ e, filterBuild (newFilterBuilder "host") = Except.error e)
    ∧ (∃ e, filterBuild { key := "host", operation := FilterOperation.Equal, values := [] }
        = Except.error e)
    ∧ (∃ e, filterBuild { key := "host", operation := FilterOperation.NotEqual, values := [] }
        = Except.error e)
    ∧ (∃ e, filterBuild { key := "host", operation := FilterOperation.Regex, values := [] }
        = Except.error e)
    ∧ (∃ e, filterBuild { key := "host", operation := FilterOperation.In, values := [] }
        = Except.error e)
    ∧ (∃ e, filterBuild { key := "host", operation := FilterOperation.NotIn, values := [] }
        = Except.error e)
    ∧ (filterBuild { key := "host", operation := FilterOperation.Equal, values := ["web-1"] }
        = Except.ok ("host" ++ ":" ++ "web-1"))
    ∧ (filterBuild { key := "host", operation := FilterOperation.NotEqual, values := ["web-1"] }
        = Except.ok ("host" ++ "!:" ++ "web-1"))
    ∧ (filterBuild { key := "host", operation := FilterOperation.Regex, values := ["web-.*"] }
        = Except.ok ("host" ++ ":~" ++ "web-.*"))
    ∧ (filterBuild { key := "host", operation := FilterOperation.In, values := ["a", "b"] }
        = Except.ok ("host" ++ " IN [" ++ String.intercalate ", " (quoteValues ["a", "b"]) ++ "]"))
    ∧ (filterBuild { key := "host", operation := FilterOperation.NotIn, values := ["a", "b"] }
        = Except.ok ("host" ++ " NOT IN [" ++ String.intercalate ", " (quoteValues ["a", "b"]) ++ "]")) :=
  ⟨filter_build_characterization.1 _ rfl,
   filter_build_characterization.2.1 "host",
   filter_build_characterization.2.2.1 _ rfl (by decide),
   filter_build_characterization.2.2.2.1 _ rfl (by decide),
   filter_build_characterization.2.2.2.2.1 _ rfl (by decide),
   filter_build_characterization.2.2.2.2.2.1 _ rfl rfl,
   filter_build_characterization.2.2.2.2.2.2.1 _ rfl rfl,
   filter_build_characterization.2.2.2.2.2.2.2.1 "host" "web-1" (by decide),
   filter_build_characterization.2.2.2.2.2.2.2.2.1 "host" "web-1" (by decide),
   filter_build_characterization.2.2.2.2.2.2.2.2.2.1 "host" "web-.*" (by decide),
   filter_build_characterization.2.2.2.2.2.2.2.2.2.2.1 "host" "a" ["b"] (by decide),
   filter_build_characterization.2.2.2.2.2.2.2.2.2.2.2 "host" "a" ["b"] (by decide)⟩

/-- Counterexample for claim C3 as stated: an In filter renders with
double-quoted values in square brackets, not as the claimed bare
parenthesized list. -/
theorem filter_build_in_brackets_counterexample :
    filterBuild { key := "host", operation := FilterOperation.In, values := ["a", "b"] }
      = Except.ok "host IN [\"a\", \"b\"]"
    ∧ "host IN [\"a\", \"b\"]" ≠ "host IN (a,b)" :=
  ⟨rfl, by decide⟩

/-- Claim C10: GreaterThan and LessThan atomically set the operation and
a single-element value list; Build renders key>value and key<value, and
fails whenever the value list does not have exactly one element. -/
theorem greater_less_than_builders :
    (∀ (b : Filter) (v : String),
      Filter.GreaterThan b v = { b with operation := FilterOperation.GreaterThan, values := [v] })
    ∧ (∀ (b : Filter) (v : String),
      Filter.LessThan b v = { b with operation := FilterOperation.LessThan, values := [v] })
    ∧ (∀ k v : String, k ≠ "" →
        filterBuild { key := k, operation := FilterOperation.GreaterThan, values := [v] }
          = Except.ok (k ++ ">" ++ v))
    ∧ (∀ k v : String, k ≠ "" →
        filterBuild { key := k, operation := FilterOperation.LessThan, values := [v] }
          = Except.ok (k ++ "<" ++ v))
    ∧ (∀ b : Filter, b.operation = FilterOperation.GreaterThan → b.values.length ≠ 1 →
        ∃ e, filterBuild b = Except.error e)
    ∧ (∀ b : Filter, b.operation = FilterOperation.LessThan → b.values.length ≠ 1 →
        ∃ e, filterBuild b = Except.error e) := by
  refine ⟨fun b v => rfl, fun b v => rfl, ?_, ?_, ?_, ?_⟩
  · intro k v h
    simp [filterBuild, h]
  · intro k v h
    simp [filterBuild, h]
  · intro b h1 h2
    by_cases hk : b.key = ""
    · exact ⟨"filter key is required", by simp [filterBuild, hk]⟩
    · exact ⟨"greater than filter requires exactly one value", by simp [filterBuild, hk, h1, h2]⟩
  · intro b h1 h2
    by_cases hk : b.key = ""
    · exact ⟨"filter key is required", by simp [filterBuild, hk]⟩
    · exact ⟨"less than filter requires exactly one value", by simp [filterBuild, hk, h1, h2]⟩

/-- Witness for claim C10 at concrete inputs. -/
theorem greater_less_than_builders_witness :
    (filterBuild { key := "cpu", operation := FilterOperation.GreaterThan, values := ["80"] }
      = Except.ok ("cpu" ++ ">" ++ "80"))
    ∧ (filterBuild { key := "cpu", operation := FilterOperation.LessThan, values := ["80"] }
      = Except.ok ("cpu" ++ "<" ++ "80"))
    ∧ (∃ e, filterBuild { key := "cpu", operation := FilterOperation.GreaterThan, values := [] }
        = Except.error e)
    ∧ (∃ e, filterBuild { key := "cpu", operation := FilterOperation.LessThan, values := ["1", "2"] }
        = Except.error e) :=
  ⟨greater_less_than_builders.2.2.1 "cpu" "80" (by decide),
   greater_less_than_builders.2.2.2.1 "cpu" "80" (by decide),
   greater_less_than_builders.2.2.2.2.1 _ rfl (by decide),
   greater_less_than_builders.2.2.2.2.2 _ rfl (by decide)⟩

/-- Claim C5: filterGroupBuilder.Build fails on an empty children list;
on success it joins the recursively built children with the operator
string, adds one pair of parentheses exactly when there is more than one
child, and prefixes NOT exactly when the group is negated, outside the
parentheses. -/
theorem filter_group_build_rendering :
    (∀ (op : GroupOperator) (neg : Bool),
      FilterGroup.build { expressions := [], operator := op, negated := neg }
        = Except.error "filter group must contain at least one expression")
    ∧ (∀ (exprs : List FilterExpression) (op : GroupOperator) (neg : Bool)
        (parts : List String), exprs ≠ [] → buildParts exprs = Except.ok parts →
        FilterGroup.build { expressions := exprs, operator := op, negated := neg }
          = Except.ok ((if neg then "NOT " else "") ++
              (if exprs.length > 1 then
                "(" ++ String.intercalate (groupOperatorString op) parts ++ ")"
              else String.intercalate (groupOperatorString op) parts))) := by
  constructor
  · intro op neg
    rfl
  · intro exprs op neg parts hne hp
    have hlen : exprs.length ≠ 0 := by
      simpa using fun h => hne (List.length_eq_zero.mp h)
    cases neg <;> simp [FilterGroup.build, FilterGroup.toExpr, buildExpr, hlen, hp]

/-- Witness for claim C5: a negated two-child group built concretely. -/
theorem filter_group_build_rendering_witness :
    FilterGroup.build
      { expressions :=
          [FilterExpression.filter
            { key := "env", operation := FilterOperation.Equal, values := ["prod"] },
           FilterExpression.filter
            { key := "host", operation := FilterOperation.Equal, values := ["web-1"] }],
        operator := GroupOperator.AndOperator, negated := true }
      = Except.ok ((if true then "NOT " else "") ++
          (if (2 : Nat) > 1 then
            "(" ++ String.intercalate (groupOperatorString GroupOperator.AndOperator)
              ["env:prod", "host:web-1"] ++ ")"
          else String.intercalate (groupOperatorString GroupOperator.AndOperator)
            ["env:prod", "host:web-1"])) :=
  filter_group_build_rendering.2 _ GroupOperator.AndOperator true
    ["env:prod", "host:web-1"] (by simp) rfl

/-- Claim C8: the first And or Or call on an empty group sets the group
operator accordingly and appends; every later call only appends,
whichever method is used; Not is idempotent on the rendered output. -/
theorem group_and_or_not_behavior :
    (∀ (g : FilterGroup) (e : FilterExpression), g.expressions = [] →
      g.And e = { g with operator := GroupOperator.AndOperator, expressions := [e] })
    ∧ (∀ (g : FilterGroup) (e : FilterExpression), g.expressions = [] →
      g.Or e = { g with operator := GroupOperator.OrOperator, expressions := [e] })
    ∧ (∀ (g : FilterGroup) (e : FilterExpression), g.expressions ≠ [] →
      g.And e = { g with expressions := g.expressions ++ [e] }
      ∧ g.Or e = { g with expressions := g.expressions ++ [e] })
    ∧ (∀ g : FilterGroup, FilterGroup.build g.Not.Not = FilterGroup.build g.Not) := by
  refine ⟨?_, ?_, ?_, fun g => rfl⟩
  · intro g e h
    simp [FilterGroup.And, h]
  · intro g e h
    simp [FilterGroup.Or, h]
  · intro g e h
    have hlen : g.expressions.length ≠ 0 := by
      simpa using fun h2 => h (List.length_eq_zero.mp h2)
    exact ⟨by simp [FilterGroup.And, hlen], by simp [FilterGroup.Or, hlen]⟩

/-- Witness for claim C8 at concrete groups. -/
theorem group_and_or_not_behavior_witness :
    (FilterGroup.And { expressions := [], operator := GroupOperator.OrOperator, negated := false }
        (FilterExpression.filter (newFilterBuilder "a"))
      = { expressions := [FilterExpression.filter (newFilterBuilder "a")],
          operator := GroupOperator.AndOperator, negated := false })
    ∧ (FilterGroup.Or { expressions := [], operator := GroupOperator.AndOperator, negated := false }
        (FilterExpression.filter (newFilterBuilder "a"))
      = { expressions := [FilterExpression.filter (newFilterBuilder "a")],
          operator := GroupOperator.OrOperator, negated := false })
    ∧ (FilterGroup.Or
        { expressions := [FilterExpression.filter (newFilterBuilder "a")],
          operator := GroupOperator.AndOperator, negated := false }
        (FilterExpression.filter (newFilterBuilder "b"))
      = { expressions := [FilterExpression.filter (newFilterBuilder "a"),
            FilterExpression.filter (newFilterBuilder "b")],
          operator := GroupOperator.AndOperator, negated := false }) :=
  ⟨group_and_or_not_behavior.1 _ _ rfl,
   group_and_or_not_behavior.2.1 _ _ rfl,
   (group_and_or_not_behavior.2.2.1 _ _ (by simp)).2⟩

/-- Claim C9: a Build call that returns an error leaves the builder state
exactly as it was: the Go Build methods of the three builders never
assign their receiver fields, so the threaded receiver is returned
unchanged on every error outcome. -/
theorem build_error_preserves_receiver :
    (∀ (b : Filter) (e : String), (filterBuildWithReceiver b).2 = Except.error e →
      (filterBuildWithReceiver b).1 = b)
    ∧ (∀ (g : FilterGroup) (e : String), (groupBuildWithReceiver g).2 = Except.error e →
      (groupBuildWithReceiver g).1 = g)
    ∧ (∀ (b : MetricQuery) (e : String), (metricQueryBuildWithReceiver b).2 = Except.error e →
      (metricQueryBuildWithReceiver b).1 = b) :=
  ⟨fun _ _ _ => rfl, fun _ _ _ => rfl, fun _ _ _ => rfl⟩

/-- Witness for claim C9: failing builds of all three builders leave the
concrete states unchanged. -/
theorem build_error_preserves_receiver_witness :
    ((filterBuildWithReceiver
        { key := "", operation := FilterOperation.Equal, values := ["x"] }).1
      = { key := "", operation := FilterOperation.Equal, values := ["x"] })
    ∧ ((groupBuildWithReceiver
        { expressions := [], operator := GroupOperator.AndOperator, negated := false }).1
      = { expressions := [], operator := GroupOperator.AndOperator, negated := false })
    ∧ ((metricQueryBuildWithReceiver newMetricQueryBuilder).1 = newMetricQueryBuilder) :=
  ⟨build_error_preserves_receiver.1 _ "filter key is required" rfl,
   build_error_preserves_receiver.2.1 _ "filter group must contain at least one expression" rfl,
   build_error_preserves_receiver.2.2 _ "metric name is required" rfl⟩

/-- Folding the And method over a group appends every expression. -/
lemma foldl_and_expressions (fs : List FilterExpression) (g : FilterGroup) :
    (fs.foldl FilterGroup.And g).expressions = g.expressions ++ fs := by
  induction fs generalizing g with
  | nil => simp
  | cons f rest ih =>
    rw [List.foldl_cons, ih]
    by_cases h : g.expressions.length = 0 <;> simp [FilterGroup.And, h]

/-- Folding the And method over an AND group keeps the operator AND. -/
lemma foldl_and_operator (fs : List FilterExpression) (g : FilterGroup)
    (h : g.operator = GroupOperator.AndOperator) :
    (fs.foldl FilterGroup.And g).operator = GroupOperator.AndOperator := by
  induction fs generalizing g with
  | nil => exact h
  | cons f rest ih =>
    rw [List.foldl_cons]
    exact ih _ (by by_cases hg : g.expressions.length = 0 <;> simp [FilterGroup.And, hg, h])

/-- Folding the And method never changes the negation flag. -/
lemma foldl_and_negated (fs : List FilterExpression) (g : FilterGroup) :
    (fs.foldl FilterGroup.And g).negated = g.negated := by
  induction fs generalizing g with
  | nil => rfl
  | cons f rest ih =>
    rw [List.foldl_cons, ih]
    by_cases h : g.expressions.length = 0 <;> simp [FilterGroup.And, h]

/-- Claim C1: the filter-block policy of metricQueryBuilder.Build.  An
empty filter list renders the wildcard block (and a metric-only query
renders metric followed by the wildcard block); a nonempty all-simple
list renders the built filters joined by a comma and a space inside
braces; a list containing at least one group renders as the single
synthesized top-level AND group holding all filters in their original
order, never in comma form. -/
theorem metric_build_filter_block_policy :
    (buildFilterBlock [] = Except.ok "\x7b*\x7d")
    ∧ (∀ m : String, m ≠ "" →
        metricQueryBuild { newMetricQueryBuilder with metric := m }
          = Except.ok (m ++ "\x7b*\x7d"))
    ∧ (∀ (fs : List FilterExpression) (ss : List String), fs ≠ [] →
        (∀ f ∈ fs, isGroupExpr f = false) → buildFilterStrs fs = Except.ok ss →
        buildFilterBlock fs = Except.ok ("\x7b" ++ String.intercalate ", " ss ++ "\x7d"))
    ∧ (∀ fs : List FilterExpression, fs.any isGroupExpr = true →
        ((fs.foldl FilterGroup.And newFilterGroupBuilder).expressions = fs
         ∧ (fs.foldl FilterGroup.And newFilterGroupBuilder).operator = GroupOperator.AndOperator
         ∧ (fs.foldl FilterGroup.And newFilterGroupBuilder).negated = false
         ∧ buildFilterBlock fs =
            (match (fs.foldl FilterGroup.And newFilterGroupBuilder).build with
             | Except.error e => Except.error ("error building filter group: " ++ e)
             | Except.ok s => Except.ok ("\x7b" ++ s ++ "\x7d")))) := by
  refine ⟨rfl, ?_, ?_, ?_⟩
  · intro m hm
    simp [metricQueryBuild, newMetricQueryBuilder, buildFilterBlock, hm, String.join,
      buildFunctionStrs]
  · intro fs ss hne hsimple hstrs
    have hlen : fs.length > 0 := by
      cases fs with
      | nil => exact absurd rfl hne
      | cons a l => simp
    have hany : fs.any isGroupExpr = false := by
      simp only [List.any_eq_false]
      intro f hf
      simp [hsimple f hf]
    simp [buildFilterBlock, hlen, hany, hstrs]
  · intro fs hany
    have hne : fs ≠ [] := by
      intro h
      rw [h] at hany
      simp at hany
    have hlen : fs.length > 0 := by
      cases fs with
      | nil => exact absurd rfl hne
      | cons a l => simp
    refine ⟨?_, ?_, ?_, ?_⟩
    · simpa [newFilterGroupBuilder] using foldl_and_expressions fs newFilterGroupBuilder
    · exact foldl_and_operator fs newFilterGroupBuilder rfl
    · simpa [newFilterGroupBuilder] using foldl_and_negated fs newFilterGroupBuilder
    · simp [buildFilterBlock, hlen, hany]

/-- Witness for claim C1: the policy at concrete filter lists. -/
theorem metric_build_filter_block_policy_witness :
    (metricQueryBuild { newMetricQueryBuilder with metric := "system.cpu.idle" }
      = Except.ok ("system.cpu.idle" ++ "\x7b*\x7d"))
    ∧ (buildFilterBlock
        [FilterExpression.filter
          { key := "host", operation := FilterOperation.Equal, values := ["web-1"] },
         FilterExpression.filter
          { key := "env", operation := FilterOperation.Equal, values := ["prod"] }]
        = Except.ok ("\x7b" ++ String.intercalate ", " ["host:web-1", "env:prod"] ++ "\x7d"))
    ∧ ((([FilterExpression.group
            [FilterExpression.filter
              { key := "env", operation := FilterOperation.Equal, values := ["prod"] }]
            GroupOperator.OrOperator false,
          FilterExpression.filter
            { key := "host", operation := FilterOperation.Equal, values := ["web-1"] }].foldl
          FilterGroup.And newFilterGroupBuilder).expressions
        = [FilterExpression.group
            [FilterExpression.filter
              { key := "env", operation := FilterOperation.Equal, values := ["prod"] }]
            GroupOperator.OrOperator false,
           FilterExpression.filter
            { key := "host", operation := FilterOperation.Equal, values := ["web-1"] }])) :=
  ⟨metric_build_filter_block_policy.2.1 "system.cpu.idle" (by decide),
   metric_build_filter_block_policy.2.2.1 _ ["host:web-1", "env:prod"] (by simp)
     (by intro f hf; fin_cases hf <;> rfl) rfl,
   (metric_build_filter_block_policy.2.2.2 _ (by simp [isGroupExpr])).1⟩

/-- Helper: find? over an appended list takes the first list's hit
first. -/
lemma find_append_first {α : Type} (l1 l2 : List α) (p : α → Bool) :
    (l1 ++ l2).find? p =
      (match l1.find? p with
       | some x => some x
       | none => l2.find? p) := by
  induction l1 with
  | nil => simp
  | cons a l ih =>
    by_cases h : p a <;> simp [List.find?, h, ih]

mutual

/-- findGroupRecursive returns the first pre-order group hit of one
expression. -/
theorem findGroupRecursive_eq_find (e : FilterExpression) (p : FilterGroup → Bool) :
    findGroupRecursive e p = (groupsPreExpr e).find? p := by
  cases e with
  | filter f => rfl
  | group exprs op neg =>
    by_cases h : p ⟨exprs, op, neg⟩ <;>
      simp [findGroupRecursive, groupsPreExpr, List.find?, h,
        findGroupInList_eq_find exprs p]

/-- findGroupInList returns the first pre-order group hit of an
expression list. -/
theorem findGroupInList_eq_find (l : List FilterExpression) (p : FilterGroup → Bool) :
    findGroupInList l p = (groupsPreListAux l).find? p := by
  cases l with
  | nil => rfl
  | cons e rest =>
    rw [groupsPreListAux, find_append_first]
    rw [findGroupInList, findGroupRecursive_eq_find e p,
      findGroupInList_eq_find rest p]
    cases List.find? p (groupsPreExpr e) <;> rfl

end

/-- Claim C7: FindGroup returns the first group of the depth-first
pre-order traversal (top-level filters in list order, a group before its
children, children in order) satisfying the predicate, and nothing when
no group satisfies it; AddToGroup with a nil group appends the expression
as a new top-level filter and cannot error; AddToGroup with a found group
appends through the entry point matching the group's operator, which
never changes that operator. -/
theorem find_group_preorder_and_add :
    (∀ (b : MetricQuery) (p : FilterGroup → Bool),
      b.FindGroup p = (groupsPreListAux b.filters).find? p)
    ∧ (∀ (b : MetricQuery) (f : FilterExpression),
      b.AddToGroup none f = { b with filters := b.filters ++ [f] })
    ∧ (∀ (g : FilterGroup) (f : FilterExpression),
      (addToGroupUpdate g f).operator = g.operator
      ∧ (addToGroupUpdate g f).expressions = g.expressions ++ [f]) := by
  refine ⟨?_, fun b f => rfl, ?_⟩
  · intro b p
    exact findGroupInList_eq_find b.filters p
  · intro g f
    obtain ⟨exprs, op, neg⟩ := g
    cases op <;>
      by_cases h : exprs.length = 0 <;>
        simp_all [addToGroupUpdate, FilterGroup.And, FilterGroup.Or, List.length_eq_zero]

/-- Witness for claim C7: the traversal characterization at a concrete
builder. -/
theorem find_group_preorder_and_add_witness :
    MetricQuery.FindGroup newMetricQueryBuilder (fun _ => true)
      = (groupsPreListAux newMetricQueryBuilder.filters).find? (fun _ => true) :=
  find_group_preorder_and_add.1 newMetricQueryBuilder (fun _ => true)

/-- Claim C4 (amended): in convertFilters, a comma separator changes
nothing — in particular it creates no group, so with no group open its
operands stay separate top-level expressions, but it does not close an
open group either (see the counterexample for the original claim); an
AND or OR separator with no open group creates one, moving the previous
top-level expression into it as its first child and setting its operator
per the token; with an open group it only resets the operator per the
token (last writer wins when AND and OR mix); on completion an open group
is appended to the expression list. -/
theorem convert_filters_separator_policy :
    (∀ st : ConvertState, convertFiltersStep st commaSeparatorParam = Except.ok st)
    ∧ (∀ (es : List FilterExpression) (e : FilterExpression) (gop : GroupOperator),
      convertFiltersStep ⟨es ++ [e], none, gop⟩ andSeparatorParam
        = Except.ok ⟨es, some ⟨[e], GroupOperator.AndOperator, false⟩,
            GroupOperator.AndOperator⟩)
    ∧ (∀ (es : List FilterExpression) (e : FilterExpression) (gop : GroupOperator),
      convertFiltersStep ⟨es ++ [e], none, gop⟩ orSeparatorParam
        = Except.ok ⟨es, some ⟨[e], GroupOperator.OrOperator, false⟩,
            GroupOperator.OrOperator⟩)
    ∧ (∀ (es : List FilterExpression) (g : FilterGroup) (gop : GroupOperator),
      convertFiltersStep ⟨es, some g, gop⟩ andSeparatorParam
        = Except.ok ⟨es, some { g with operator := GroupOperator.AndOperator },
            GroupOperator.AndOperator⟩)
    ∧ (∀ (es : List FilterExpression) (g : FilterGroup) (gop : GroupOperator),
      convertFiltersStep ⟨es, some g, gop⟩ orSeparatorParam
        = Except.ok ⟨es, some { g with operator := GroupOperator.OrOperator },
            GroupOperator.OrOperator⟩)
    ∧ (∀ (es : List FilterExpression) (g : FilterGroup) (gop : GroupOperator),
      convertFiltersLoop [] ⟨es, some g, gop⟩ = Except.ok (es ++ [g.toExpr]))
    ∧ (∀ (es : List FilterExpression) (gop : GroupOperator),
      convertFiltersLoop [] ⟨es, none, gop⟩ = Except.ok es) := by
  refine ⟨fun st => rfl, ?_, ?_, fun es g gop => rfl, fun es g gop => rfl,
    fun es g gop => rfl, fun es gop => rfl⟩
  · intro es e gop
    simp [convertFiltersStep, andSeparatorParam, DDQP.Param.Separator]
  · intro es e gop
    simp [convertFiltersStep, orSeparatorParam, DDQP.Param.Separator]

/-- Witness for claim C4: the separator policy at a concrete state. -/
theorem convert_filters_separator_policy_witness :
    convertFiltersStep ⟨[], none, GroupOperator.AndOperator⟩ commaSeparatorParam
      = Except.ok ⟨[], none, GroupOperator.AndOperator⟩ :=
  convert_filters_separator_policy.1 ⟨[], none, GroupOperator.AndOperator⟩

/-- Counterexample for claim C4 as stated: in the parameter list
`a:1 AND b:2 , c:3` the comma separator does not leave its right operand
as a separate top-level expression — the expression converted from `c:3`
ends up inside the AND group opened earlier, and the whole result is one
group. -/
theorem convert_filters_comma_counterexample :
    convertFilters
      { Left := some (atomParam (Atom.colon "a" "1")),
        Parameters := [andSeparatorParam, atomParam (Atom.colon "b" "2"),
          commaSeparatorParam, atomParam (Atom.colon "c" "3")] }
      = Except.ok [FilterExpression.group
          [FilterExpression.filter
            { key := "a", operation := FilterOperation.Equal, values := ["1"] },
           FilterExpression.filter
            { key := "b", operation := FilterOperation.Equal, values := ["2"] },
           FilterExpression.filter
            { key := "c", operation := FilterOperation.Equal, values := ["3"] }]
          GroupOperator.AndOperator false]
    ∧ (FilterExpression.filter
        { key := "c", operation := FilterOperation.Equal, values := ["3"] })
      ∉ [FilterExpression.group
          [FilterExpression.filter
            { key := "a", operation := FilterOperation.Equal, values := ["1"] },
           FilterExpression.filter
            { key := "b", operation := FilterOperation.Equal, values := ["2"] },
           FilterExpression.filter
            { key := "c", operation := FilterOperation.Equal, values := ["3"] }]
          GroupOperator.AndOperator false] := by
  constructor
  · simp [convertFilters, convertParam, atomParam, atomToSimpleFilter, convertSimpleFilter,
      newFilterBuilder, extractFilterValue, identValue, extractValueString, Filter.Equal,
      convertFiltersLoop, convertFiltersStep, andSeparatorParam, commaSeparatorParam,
      DDQP.Param.Separator, DDQP.Param.SimpleFilter, DDQP.Param.Asterisk,
      DDQP.Param.GroupedFilter, FilterGroup.And, FilterGroup.toExpr]
  · simp

/-- Claim C6 (amended): converting a simple-filter node fails exactly
when the key is empty, the filter separator is missing, the single-value
extraction fails (nil or contentless filter value, or a value list with
no extractable entry), or an In or NotIn kind is reached and the
list-value extraction yields zero values.  An unrecognized-but-present
separator kind is not a failure: it falls back to Equal or NotEqual (see
the counterexample). -/
theorem convert_simple_filter_error_conditions :
    ∀ sf : DDQP.SimpleFilter,
      (∃ e, convertSimpleFilter (some sf) = Except.error e) ↔
        (sf.FilterKey = ""
         ∨ sf.FilterSeparator = none
         ∨ (∃ e, extractFilterValue sf.FilterValue = Except.error e)
         ∨ (∃ fs, sf.FilterSeparator = some fs ∧ fs.Colon = false ∧ fs.Regex = false
             ∧ (fs.In = true ∨ fs.NotIn = true)
             ∧ ∃ e, extractFilterValues sf.FilterValue = Except.error e)) := by
  rintro ⟨neg, key, sep, fv⟩
  by_cases hk : key = ""
  · simp [convertSimpleFilter, hk]
  cases sep with
  | none => simp [convertSimpleFilter, hk]
  | some fs =>
    cases hv : extractFilterValue fv with
    | error ev =>
      simp [convertSimpleFilter, hk, hv]
    | ok v =>
      by_cases hc : fs.Colon = true
      · cases neg <;> simp [convertSimpleFilter, hk, hv, hc]
      by_cases hr : fs.Regex = true
      · simp [convertSimpleFilter, hk, hv, hc, hr]
      by_cases hi : fs.In = true
      · cases hvs : extractFilterValues fv with
        | error evs => simp [convertSimpleFilter, hk, hv, hc, hr, hi, hvs]
        | ok vs => simp [convertSimpleFilter, hk, hv, hc, hr, hi, hvs]
      by_cases hni : fs.NotIn = true
      · cases hvs : extractFilterValues fv with
        | error evs => simp [convertSimpleFilter, hk, hv, hc, hr, hi, hni, hvs]
        | ok vs => simp [convertSimpleFilter, hk, hv, hc, hr, hi, hni, hvs]
      · cases neg <;> simp [convertSimpleFilter, hk, hv, hc, hr, hi, hni]

/-- Witness for claim C6: the characterization applied to a concrete
empty-key node. -/
theorem convert_simple_filter_error_conditions_witness :
    ∃ e, convertSimpleFilter
        (some { Negative := false, FilterKey := "", FilterSeparator := none,
                FilterValue := none })
      = Except.error e :=
  (convert_simple_filter_error_conditions
    { Negative := false, FilterKey := "", FilterSeparator := none,
      FilterValue := none }).mpr (Or.inl rfl)

/-- Parsed atoms always carry a nonempty key. -/
lemma parseAtomModel_key (raw : List Char) (a : Atom) (h : parseAtomModel raw = some a) :
    atomKey a ≠ "" := by
  unfold parseAtomModel at h
  split at h
  · split_ifs at h with hcond
    injection h with h2
    subst h2
    simp only [atomKey]
    intro he
    have hd := congrArg String.data he
    simp at hd
    exact hcond.2 hd
  · split at h
    · split_ifs at h with hcond
      injection h with h2
      subst h2
      simp only [atomKey]
      intro he
      have hd := congrArg String.data he
      simp at hd
      exact hcond.2 hd
    · split at h
      · split_ifs at h with hcond
        injection h with h2
        subst h2
        simp only [atomKey]
        intro he
        have hd := congrArg String.data he
        simp at hd
        exact hcond hd
      · exact absurd h (by simp)

/-- Every atom of a parsed atom list carries a nonempty key. -/
lemma parseAtomsModel_keys (raws : List (List Char)) (atoms : List Atom)
    (h : parseAtomsModel raws = some atoms) : ∀ a ∈ atoms, atomKey a ≠ "" := by
  induction raws generalizing atoms with
  | nil =>
    unfold parseAtomsModel at h
    injection h with h2
    subst h2
    simp
  | cons r rs ih =>
    unfold parseAtomsModel at h
    cases hr : parseAtomModel r with
    | none => rw [hr] at h; exact absurd h (by simp)
    | some a =>
      rw [hr] at h
      cases hrs : parseAtomsModel rs with
      | none => rw [hrs] at h; exact absurd h (by simp)
      | some as1 =>
        rw [hrs] at h
        injection h with h2
        subst h2
        intro x hx
        rcases List.mem_cons.mp hx with h3 | h3
        · subst h3; exact parseAtomModel_key r x hr
        · exact ih as1 hrs x h3

/-- An atom list parses piecewise, so it has the length of its input. -/
lemma parseAtomsModel_length (raws : List (List Char)) (atoms : List Atom)
    (h : parseAtomsModel raws = some atoms) : atoms.length = raws.length := by
  induction raws generalizing atoms with
  | nil =>
    unfold parseAtomsModel at h
    injection h with h2
    subst h2
    rfl
  | cons r rs ih =>
    unfold parseAtomsModel at h
    cases hr : parseAtomModel r with
    | none => rw [hr] at h; exact absurd h (by simp)
    | some a =>
      rw [hr] at h
      cases hrs : parseAtomsModel rs with
      | none => rw [hrs] at h; exact absurd h (by simp)
      | some as1 =>
        rw [hrs] at h
        injection h with h2
        subst h2
        simp [ih as1 hrs]

/-- The comma splitter always yields at least one chunk. -/
lemma splitTopCommaAux_ne_nil (cs : List Char) (d : Nat) (acc : List Char) :
    splitTopCommaAux cs d acc ≠ [] := by
  induction cs generalizing d acc with
  | nil => simp [splitTopCommaAux]
  | cons c rest ih =>
    unfold splitTopCommaAux
    split
    · simp
    · split
      · exact ih _ _
      · split
        · exact ih _ _
        · exact ih _ _

/-- What acceptance by the modelled grammar parser guarantees: a nonempty
metric name, a nonempty atom list with nonempty keys, and agreement of
the input with the canonical recomposition up to spaces. -/
lemma ddqpParseModel_extract (s m : String) (atoms : List Atom)
    (h : ddqpParseModel s = some (m, atoms)) :
    m ≠ "" ∧ atoms ≠ [] ∧ (∀ a ∈ atoms, atomKey a ≠ "")
    ∧ despace s = despace (recomposeQuery m atoms) := by
  unfold ddqpParseModel at h
  cases hs : splitBraceAux s.toList with
  | none => rw [hs] at h; exact absurd h (by simp)
  | some mb =>
    obtain ⟨mChars, bodyChars⟩ := mb
    rw [hs] at h
    simp only at h
    split at h
    · exact absurd h (by simp)
    · rename_i hm
      cases hp : parseAtomsModel (splitTopCommaAux bodyChars 0 []) with
      | none => rw [hp] at h; exact absurd h (by simp)
      | some atoms2 =>
        rw [hp] at h
        simp only at h
        split_ifs at h with hguard
        injection h with h2
        have hm2 : String.mk mChars = m := congrArg Prod.fst h2
        have ha2 : atoms2 = atoms := congrArg Prod.snd h2
        subst hm2
        subst ha2
        refine ⟨hm, ?_, parseAtomsModel_keys _ _ hp, hguard⟩
        intro hnil
        have hlen := parseAtomsModel_length _ _ hp
        rw [hnil] at hlen
        exact splitTopCommaAux_ne_nil bodyChars 0 [] (List.length_eq_zero.mp hlen.symm)

/-- The Separator field of a simple-filter parameter is empty. -/
lemma atomParam_sep (a : Atom) : DDQP.Param.Separator (atomParam a) = none := rfl

/-- Converting the parameter of a colon atom yields its Equal filter. -/
lemma convertParam_colon (k v : String) (hk : k ≠ "") :
    convertParam (some (atomParam (Atom.colon k v)))
      = Except.ok (some (colonToExpr (Atom.colon k v))) := by
  simp [convertParam, atomParam, atomToSimpleFilter, convertSimpleFilter, newFilterBuilder,
    extractFilterValue, identValue, extractValueString, Filter.Equal, colonToExpr, hk]

/-- A comma separator leaves the grouping state untouched. -/
lemma convertFiltersStep_comma_none (es : List FilterExpression) :
    convertFiltersStep ⟨es, none, GroupOperator.AndOperator⟩ commaSeparatorParam
      = Except.ok ⟨es, none, GroupOperator.AndOperator⟩ := rfl

/-- A colon-atom parameter is appended as a top-level expression when no
group is open. -/
lemma convertFiltersStep_colon (es : List FilterExpression) (k v : String) (hk : k ≠ "") :
    convertFiltersStep ⟨es, none, GroupOperator.AndOperator⟩ (atomParam (Atom.colon k v))
      = Except.ok ⟨es ++ [colonToExpr (Atom.colon k v)], none, GroupOperator.AndOperator⟩ := by
  simp only [convertFiltersStep, atomParam_sep, convertParam_colon k v hk]

/-- The conversion loop on comma-interleaved colon atoms accumulates the
corresponding Equal filters in order, forming no group. -/
lemma convertFiltersLoop_commas (atoms : List Atom) (es : List FilterExpression)
    (h : ∀ a ∈ atoms, Atom.isColon a = true ∧ atomKey a ≠ "") :
    convertFiltersLoop (interleaveComma atoms) ⟨es, none, GroupOperator.AndOperator⟩
      = Except.ok (es ++ atoms.map colonToExpr) := by
  induction atoms generalizing es with
  | nil => simp [interleaveComma, convertFiltersLoop]
  | cons a rest ih =>
    obtain ⟨hcolon, hkey⟩ := h a (by simp)
    obtain ⟨k, v, rfl⟩ : ∃ k v, a = Atom.colon k v := by
      cases a with
      | colon k v => exact ⟨k, v, rfl⟩
      | inList k vs => simp [Atom.isColon] at hcolon
      | notInList k vs => simp [Atom.isColon] at hcolon
    have hihyp : ∀ x ∈ rest, Atom.isColon x = true ∧ atomKey x ≠ "" :=
      fun x hx => h x (by simp [hx])
    rw [interleaveComma]
    simp only [convertFiltersLoop, convertFiltersStep_comma_none,
      convertFiltersStep_colon es k v (by simpa [atomKey] using hkey), ih _ hihyp]
    simp

/-- Converting the metric filter of a nonempty comma-separated colon-atom
list yields exactly the corresponding top-level Equal filters. -/
lemma convertFilters_atoms (atoms : List Atom)
    (h : ∀ a ∈ atoms, Atom.isColon a = true ∧ atomKey a ≠ "") (hne : atoms ≠ []) :
    convertFilters (atomsToMetricFilter atoms) = Except.ok (atoms.map colonToExpr) := by
  cases atoms with
  | nil => exact absurd rfl hne
  | cons a rest =>
    obtain ⟨hcolon, hkey⟩ := h a (by simp)
    obtain ⟨k, v, rfl⟩ : ∃ k v, a = Atom.colon k v := by
      cases a with
      | colon k v => exact ⟨k, v, rfl⟩
      | inList k vs => simp [Atom.isColon] at hcolon
      | notInList k vs => simp [Atom.isColon] at hcolon
    rw [atomsToMetricFilter, convertFilters]
    rw [convertParam_colon k v (by simpa [atomKey] using hkey)]
    simp only
    rw [convertFiltersLoop_commas rest [colonToExpr (Atom.colon k v)]
      (fun x hx => h x (by simp [hx]))]
    simp

/-- Building the filters of colon atoms yields their canonical texts. -/
lemma buildFilterStrs_colon (atoms : List Atom)
    (h : ∀ a ∈ atoms, Atom.isColon a = true ∧ atomKey a ≠ "") :
    buildFilterStrs (atoms.map colonToExpr) = Except.ok (atoms.map atomCanonGrammar) := by
  induction atoms with
  | nil => rfl
  | cons a rest ih =>
    obtain ⟨hcolon, hkey⟩ := h a (by simp)
    obtain ⟨k, v, rfl⟩ : ∃ k v, a = Atom.colon k v := by
      cases a with
      | colon k v => exact ⟨k, v, rfl⟩
      | inList k vs => simp [Atom.isColon] at hcolon
      | notInList k vs => simp [Atom.isColon] at hcolon
    have hk : k ≠ "" := by simpa [atomKey] using hkey
    simp only [List.map_cons, buildFilterStrs, colonToExpr, buildExpr, filterBuild, hk,
      if_false, ih (fun x hx => h x (by simp [hx])), atomCanonGrammar]
    simp [hk]

/-- The filter block of a nonempty all-colon atom list is the
comma-joined canonical texts inside braces. -/
lemma buildFilterBlock_colon (atoms : List Atom)
    (h : ∀ a ∈ atoms, Atom.isColon a = true ∧ atomKey a ≠ "") (hne : atoms ≠ []) :
    buildFilterBlock (atoms.map colonToExpr)
      = Except.ok ("\x7b" ++ String.intercalate ", " (atoms.map atomCanonGrammar) ++ "\x7d") := by
  have hlen : (atoms.map colonToExpr).length > 0 := by
    cases atoms with
    | nil => exact absurd rfl hne
    | cons a rest => simp
  have hany : (atoms.map colonToExpr).any isGroupExpr = false := by
    simp only [List.any_eq_false]
    intro f hf
    obtain ⟨a, ha, rfl⟩ := List.mem_map.mp hf
    cases a <;> simp [colonToExpr, isGroupExpr]
  simp [buildFilterBlock, hlen, hany, buildFilterStrs_colon atoms h]
  intro h0
  exact absurd h0 hne

/-- Assembly of a query with only a metric name and filters. -/
lemma metricQueryBuild_simple (m bs : String) (fs : List FilterExpression)
    (hm : m ≠ "") (hb : buildFilterBlock fs = Except.ok bs) :
    metricQueryBuild
        { metric := m, aggregator := "", timeWindow := "", filters := fs,
          groupBy := [], functions := [] }
      = Except.ok (m ++ bs) := by
  simp [metricQueryBuild, hm, hb, buildFunctionStrs, String.join]

/-- Reassociation of the canonical recomposition. -/
lemma recomposeQuery_assoc (m : String) (atoms : List Atom) :
    recomposeQuery m atoms
      = m ++ ("\x7b" ++ String.intercalate ", " (atoms.map atomCanonGrammar) ++ "\x7d") := by
  simp [recomposeQuery, String.append_assoc]

/-- Claim C2 (amended): for every query string the modelled grammar
parser accepts whose filters are all plain non-negated colon atoms,
ingesting (ParseQuery on the fragment) and rendering (Build) reproduces
the string up to the documented canonical spacing: the output is the
canonical recomposition of the parse, which agrees with the input after
removing spaces.  For In and NotIn atoms the renderer switches to
double-quoted bracket lists, so the round trip fails beyond spacing (see
the counterexample). -/
theorem ingest_render_round_trip :
    ∀ (s m : String) (atoms : List Atom),
      ddqpParseModel s = some (m, atoms) →
      (∀ a ∈ atoms, Atom.isColon a = true) →
      ingestRenderModel s = some (Except.ok (recomposeQuery m atoms))
      ∧ despace (recomposeQuery m atoms) = despace s := by
  intro s m atoms hparse hcolon
  obtain ⟨hm, hne, hkeys, hsp⟩ := ddqpParseModel_extract s m atoms hparse
  have hboth : ∀ a ∈ atoms, Atom.isColon a = true ∧ atomKey a ≠ "" :=
    fun a ha => ⟨hcolon a ha, hkeys a ha⟩
  have hconv := convertFilters_atoms atoms hboth hne
  have hblock := buildFilterBlock_colon atoms hboth hne
  constructor
  · rw [ingestRenderModel, parseQueryModel, hparse]
    simp only [hconv, newMetricQueryBuilder]
    rw [metricQueryBuild_simple m _ (atoms.map colonToExpr) hm hblock, recomposeQuery_assoc]
  · exact hsp.symm

/-- Witness for claim C2: a concrete two-filter query round-trips. -/
theorem ingest_render_round_trip_witness :
    ingestRenderModel "system.cpu.idle\x7bhost:web-1, env:prod\x7d"
      = some (Except.ok (recomposeQuery "system.cpu.idle"
          [Atom.colon "host" "web-1", Atom.colon "env" "prod"]))
    ∧ despace (recomposeQuery "system.cpu.idle"
        [Atom.colon "host" "web-1", Atom.colon "env" "prod"])
      = despace "system.cpu.idle\x7bhost:web-1, env:prod\x7d" :=
  ingest_render_round_trip "system.cpu.idle\x7bhost:web-1, env:prod\x7d" "system.cpu.idle"
    [Atom.colon "host" "web-1", Atom.colon "env" "prod"] (by decide) (by decide)

/-- Counterexample for claim C2 as stated: an accepted query with an IN
filter does not round-trip even up to spacing — the renderer emits a
double-quoted bracket list where the input grammar had a bare
parenthesized list. -/
theorem ingest_render_in_counterexample :
    ingestRenderModel "cpu\x7bhost IN (web-1,web-2)\x7d"
      = some (Except.ok "cpu\x7bhost IN [\"web-1\", \"web-2\"]\x7d")
    ∧ despace "cpu\x7bhost IN [\"web-1\", \"web-2\"]\x7d"
      ≠ despace "cpu\x7bhost IN (web-1,web-2)\x7d" := by
  constructor
  · have h1 : ddqpParseModel "cpu\x7bhost IN (web-1,web-2)\x7d"
        = some ("cpu", [Atom.inList "host" ["web-1", "web-2"]]) := by decide
    have h2 : convertFilters (atomsToMetricFilter [Atom.inList "host" ["web-1", "web-2"]])
        = Except.ok [FilterExpression.filter
            { key := "host", operation := FilterOperation.In, values := ["web-1", "web-2"] }] := by
      simp [convertFilters, convertParam, atomParam, atomToSimpleFilter, convertSimpleFilter,
        newFilterBuilder, extractFilterValue, extractFilterValues, firstNonEmptyValue,
        collectListValues, identValue, extractValueString, Filter.In, atomsToMetricFilter,
        interleaveComma, convertFiltersLoop]
    rw [ingestRenderModel, parseQueryModel, h1]
    simp only [h2]
    rfl
  · decide

/-- Counterexample for claim C6 as stated: a simple-filter node whose
separator is present but of no recognized kind does not fail — it
converts to an Equal filter. -/
theorem convert_simple_filter_unrecognized_counterexample :
    convertSimpleFilter
      (some
        { Negative := false, FilterKey := "host",
          FilterSeparator :=
            some { Colon := false, Regex := false, In := false, NotIn := false },
          FilterValue :=
            some { SimpleValue := some (identValue "web"), ListValue := [] } })
      = Except.ok
          (some { key := "host", operation := FilterOperation.Equal, values := ["web"] }) :=
  rfl

end Ddqb
